import Mathlib

/-!
Verification of the `gx-streamlit-data-validator` repository.

The repository is Python glue code around the `great_expectations` validation
library and the `streamlit` UI framework.  Its own logic lives in
`gx_streamlit_data_validator/utils.py` (string classifiers `is_int`,
`is_float`, `is_bool`, `convert_to_bool`, the loader `get_sample_data`,
signature introspection `get_expectation_parameters`, discovery
`get_available_expectations`, and `transform_expectations`) and in
`app_dynamic_expectations.py` (`_add_new_expectation`, `_delete_expectation`).

This file shallowly embeds those functions.  Conventions:
  * Python strings are Lean `String`s (lists of characters).  Whitespace
    stripping and lower-casing are modelled for the ASCII range, which covers
    every literal the apps can produce.
  * Python `int(x)` / `float(x)` applied to a string are modelled by
    `pyParseInt` / `pyParseFloat`, following CPython's grammar for base-10
    integer and float literals (surrounding whitespace, an optional sign,
    underscores between digits, `.`/exponent forms, `inf`/`infinity`/`nan`).
    A parsed float is kept as its exact decimal value `mantissa * 10 ^ exp10`;
    `PyFloat.toRat` gives that value as a rational.
  * Fallible code returns `Option`/`Except`; a raising `int(...)`/`float(...)`
    cast inside the coercion is the `CoerceResult.raised` constructor.
  * Python dicts keyed by strings are association lists with insertion-order
    semantics (`dictInsert` overwrites an existing key in place, otherwise
    appends).  The random `uuid.uuid4()` generator is a parameter.
-/

/-- The six ASCII characters Python's `str.strip()` / `int()` / `float()`
treat as whitespace: space, tab, newline, carriage return, vertical tab,
form feed. -/
def isPySpace (c : Char) : Bool :=
  c == ' ' || c == '\t' || c == '\n' || c == '\r' || c == '\x0b' || c == '\x0c'

/-- Strip leading and trailing whitespace from a character list
(Python `str.strip()`). -/
def stripList (l : List Char) : List Char :=
  ((l.dropWhile isPySpace).reverse.dropWhile isPySpace).reverse

/-- Python `str.strip()`. -/
def pyStrip (s : String) : String :=
  ⟨stripList s.data⟩

/-- Python `str.lower()` (ASCII range). -/
def pyLower (s : String) : String :=
  ⟨s.data.map Char.toLower⟩

/-- Numeric value of an ASCII digit. -/
def digitVal (c : Char) : Nat :=
  c.toNat - 48

/-- Consume an optional leading `+`/`-` sign; return whether the sign was `-`
and the remaining characters. -/
def stripSign : List Char → Bool × List Char
  | '+' :: rest => (false, rest)
  | '-' :: rest => (true, rest)
  | l => (false, l)

/-- Consume the longest run of digits, where a single `_` may stand between
two digits (CPython's `digitpart`).  `v` and `k` accumulate the value and the
number of digits consumed; returns the accumulated value, the digit count and
the unconsumed remainder. -/
def takeDigits : Nat → Nat → List Char → Nat × Nat × List Char
  | v, k, '_' :: c :: rest =>
      if c.isDigit then takeDigits (v * 10 + digitVal c) (k + 1) rest
      else (v, k, '_' :: c :: rest)
  | v, k, c :: rest =>
      if c.isDigit then takeDigits (v * 10 + digitVal c) (k + 1) rest
      else (v, k, c :: rest)
  | v, k, [] => (v, k, [])

/-- A CPython `digitpart`: at least one digit, underscores only between
digits.  Returns the value, the digit count and the remainder, or `none` if
the input does not start with a digit. -/
def takeDigitPart (l : List Char) : Option (Nat × Nat × List Char) :=
  match l with
  | c :: rest => if c.isDigit then some (takeDigits (digitVal c) 1 rest) else none
  | [] => none

/-- Parse the body of a base-10 integer literal (sign already handled by the
caller is not: this handles the sign too).  Mirrors `int(x)` after its
whitespace strip: optional sign, then a full `digitpart` consuming the rest. -/
def pyIntCore (l : List Char) : Option Int :=
  let sr := stripSign l
  match takeDigitPart sr.2 with
  | some (v, _, []) => some (if sr.1 then -(v : Int) else (v : Int))
  | _ => none

/-- Python `int(x)` on a string: strip whitespace, optional sign, digits. -/
def pyParseInt (s : String) : Option Int :=
  pyIntCore (stripList s.data)

/-- The exact value of a successfully parsed Python float literal:
`finite m e` stands for `m * 10 ^ e`, and `inf`/`nan` are the special
values accepted by `float(x)`. -/
inductive PyFloat where
  | finite (mantissa : Int) (exp10 : Int)
  | inf (neg : Bool)
  | nan
  deriving DecidableEq

/-- The rational value of a finite parsed float (`none` for `inf`/`nan`). -/
def PyFloat.toRat : PyFloat → Option ℚ
  | .finite m e => some ((m : ℚ) * 10 ^ e)
  | _ => none

/-- Parse an optional exponent part (`e`/`E`, optional sign, digitpart) which
must consume the whole remainder; `mant`/`exp10` are the mantissa and decimal
exponent accumulated so far. -/
def parseExpPart (mant : Nat) (exp10 : Int) : List Char → Option (Nat × Int)
  | [] => some (mant, exp10)
  | c :: rest =>
      if c == 'e' || c == 'E' then
        let sr := stripSign rest
        match takeDigitPart sr.2 with
        | some (ev, _, []) =>
            some (mant, exp10 + (if sr.1 then -(ev : Int) else (ev : Int)))
        | _ => none
      else none

/-- Parse an unsigned numeric float literal: `digitpart`, `digitpart .`,
`digitpart . digitpart` or `. digitpart`, each followed by an optional
exponent.  Returns mantissa and decimal exponent. -/
def pyFloatMagnitude (l : List Char) : Option (Nat × Int) :=
  match takeDigitPart l with
  | some (ip, _, rest) =>
      match rest with
      | '.' :: rest2 =>
          match takeDigitPart rest2 with
          | some (fp, fk, rest3) => parseExpPart (ip * 10 ^ fk + fp) (-(fk : Int)) rest3
          | none => parseExpPart ip 0 rest2
      | _ => parseExpPart ip 0 rest
  | none =>
      match l with
      | '.' :: rest2 =>
          match takeDigitPart rest2 with
          | some (fp, fk, rest3) => parseExpPart fp (-(fk : Int)) rest3
          | none => none
      | _ => none

/-- Parse the body of a float literal after the whitespace strip: optional
sign, then `inf`/`infinity`/`nan` (case-insensitive) or a numeric literal. -/
def pyFloatCore (l : List Char) : Option PyFloat :=
  let sr := stripSign l
  let low := sr.2.map Char.toLower
  if low = "inf".data ∨ low = "infinity".data then some (.inf sr.1)
  else if low = "nan".data then some .nan
  else
    (pyFloatMagnitude sr.2).map fun me =>
      .finite (if sr.1 then -(me.1 : Int) else (me.1 : Int)) me.2

/-- Python `float(x)` on a string. -/
def pyParseFloat (s : String) : Option PyFloat :=
  pyFloatCore (stripList s.data)

/-- `utils.is_int`: `int(x)` inside `try`, `True` iff the cast succeeds. -/
def is_int (x : String) : Bool :=
  (pyParseInt x).isSome

/-- `utils.is_float`: `float(x)` inside `try`, `True` iff the cast succeeds. -/
def is_float (x : String) : Bool :=
  (pyParseFloat x).isSome

/-- `utils.is_bool`: `x.lower()` is the literal `"false"` or `"true"`. -/
def is_bool (x : String) : Bool :=
  pyLower x == "false" || pyLower x == "true"

/-- `utils.convert_to_bool`.  The source returns `False`/`True` for the two
literals; in the remaining branch it merely constructs
`ValueError("Supplied string should either be 'true' or 'false' ...")`
without `raise`, so the function falls off its end and returns Python
`None` — modelled as `none`. -/
def convert_to_bool (x : String) : Option Bool :=
  if pyLower x = "false" then some false
  else if pyLower x = "true" then some true
  else none

/-- `utils.IGNORE_EXPECTATION_PARAMS`. -/
def IGNORE_EXPECTATION_PARAMS : List String :=
  ["self", "column", "column_index", "meta", "catch_exceptions",
   "include_config", "result_format", "output_strftime_format",
   "parse_strings_as_datetimes", "strict_min", "strict_max"]

/-- `utils.get_sample_data`: `pd.read_csv` (the external reader, a parameter
here) inside a bare `try`; on any failure it raises
`Exception(f"Unable to ingest requested dataset file: {dataset_filename}")`. -/
def get_sample_data {α : Type} (read_csv : String → Option α)
    (dataset_filename : String) : Except String α :=
  match read_csv dataset_filename with
  | some df => .ok df
  | none => .error ("Unable to ingest requested dataset file: " ++ dataset_filename)

/-- One formal parameter of an introspected method signature
(`inspect.Parameter`): its name, declared default and annotation, the latter
two being opaque Python objects of type `V`. -/
structure SigParam (V : Type) where
  name : String
  default : V
  annotation : V
  deriving DecidableEq

/-- One entry of the list built by `utils.get_expectation_parameters`, the
dict `{"param": ..., "default": ..., "annotation": ...}`. -/
structure ExpectationParam (V : Type) where
  param : String
  default : V
  annotation : V
  deriving DecidableEq

/-- `utils.get_expectation_parameters`: loop over the ordered signature
parameters, `continue` on names in `IGNORE_EXPECTATION_PARAMS`, append a
metadata dict for the rest. -/
def get_expectation_parameters {V : Type} (signature : List (SigParam V)) :
    List (ExpectationParam V) :=
  signature.foldl
    (fun acc p =>
      if p.name ∈ IGNORE_EXPECTATION_PARAMS then acc
      else acc ++ [⟨p.name, p.default, SigParam.annotation p⟩])
    []

/-- Python `s.startswith(pre)`: `pre` is a prefix of `s`. -/
def pyStartswith (s pre : String) : Bool :=
  pre.data.isPrefixOf s.data

/-- `utils.get_available_expectations`:
`[x[0] for x in inspect.getmembers(validator) if x[0].startswith("expect_column")]`,
with `inspect.getmembers(validator)` (name, member) pairs as a parameter. -/
def get_available_expectations {V : Type} (members : List (String × V)) :
    List String :=
  (members.filter fun x => pyStartswith x.1 "expect_column").map Prod.fst

/-- Insertion into a Python dict modelled as an association list: an existing
key is overwritten in place, a new key is appended (insertion order). -/
def dictInsert {α : Type} (d : List (String × α)) (k : String) (v : α) :
    List (String × α) :=
  if d.any fun p => p.1 == k then
    d.map fun p => if p.1 == k then (k, v) else p
  else d ++ [(k, v)]

/-- A Python value as handled by the dynamic app's argument coercion. -/
inductive PyVal where
  | int (n : Int)
  | float (f : PyFloat)
  | bool (b : Bool)
  | str (s : String)
  | pynone
  deriving DecidableEq

/-- Outcome of coercing one raw argument string: a value, or an uncaught
exception from the `int(...)`/`float(...)` cast. -/
inductive CoerceResult where
  | ok (v : PyVal)
  | raised
  deriving DecidableEq

/-- The coercion of one raw argument value in `_add_new_expectation`
(`app_dynamic_expectations.py`, the body of the loop after the
empty/`None` `continue`): the classifiers run on the raw value while the
converting casts run on `arg_value = arg["value"].strip()`. -/
def coerce_arg_value (raw : String) : CoerceResult :=
  if is_int raw then
    match pyParseInt (pyStrip raw) with
    | some n => .ok (.int n)
    | none => .raised
  else if is_float raw then
    match pyParseFloat (pyStrip raw) with
    | some f => .ok (.float f)
    | none => .raised
  else if is_bool raw then
    match convert_to_bool (pyStrip raw) with
    | some b => .ok (.bool b)
    | none => .ok .pynone
  else .ok (.str (pyStrip raw))

/-- One element of the `expectation_args` list passed to
`_add_new_expectation`: `{"name": ..., "value": ...}`, where the value is a
string or Python `None`. -/
structure ArgInput where
  name : String
  value : Option String
  deriving DecidableEq

/-- One iteration of the `for arg in expectation_args` loop of
`_add_new_expectation`: skip `""`/`None` values, otherwise coerce and store
under the argument's name; `none` if the iteration raised. -/
def format_step (acc : List (String × PyVal)) (arg : ArgInput) :
    Option (List (String × PyVal)) :=
  match arg.value with
  | none => some acc
  | some raw =>
      if raw = "" then some acc
      else
        match coerce_arg_value raw with
        | .ok v => some (dictInsert acc arg.name v)
        | .raised => none

/-- The whole `formatted_expectation_args` loop of `_add_new_expectation`. -/
def format_expectation_args (args : List ArgInput) :
    Option (List (String × PyVal)) :=
  args.foldlM format_step []

/-- An Expectation Entry: the dict
`{"expectation": ..., "target_column": ..., "args": ...}` stored in the
session state.  Entries of the static default list that carry no `"args"`
key are read back with `expectation.get("args", {})`, so they are modelled
with empty `args`. -/
structure Expectation where
  expectation : String
  target_column : String
  args : List (String × PyVal)
  deriving DecidableEq

/-- `_add_new_expectation` acting on the session dict
`st.session_state["expectations"]`; the freshly generated
`utils.get_expectation_uuid()` is the `fresh_uuid` parameter.  `none` if the
argument coercion raised. -/
def _add_new_expectation (state : List (String × Expectation))
    (fresh_uuid : String) (expectation : String)
    (expectation_target_col : String) (expectation_args : List ArgInput) :
    Option (List (String × Expectation)) :=
  (format_expectation_args expectation_args).map fun fargs =>
    dictInsert state fresh_uuid ⟨expectation, expectation_target_col, fargs⟩

/-- `_delete_expectation`: `del st.session_state["expectations"][id]`;
`del` on a missing key raises `KeyError`, modelled as `none`. -/
def _delete_expectation (state : List (String × Expectation))
    (expectation_id : String) : Option (List (String × Expectation)) :=
  if state.any fun p => p.1 == expectation_id then
    some (state.filter fun p => !(p.1 == expectation_id))
  else none

/-- The `for expectation in source_expectations` loop of
`utils.transform_expectations`: the `i`-th iteration keys the `i`-th source
entry by the `i`-th generated uuid `gen i`. -/
def transformGo (gen : Nat → String) (i : Nat) (source : List Expectation)
    (acc : List (String × Expectation)) : List (String × Expectation) :=
  match source with
  | [] => acc
  | e :: rest => transformGo gen (i + 1) rest (dictInsert acc (gen i) e)

/-- `utils.transform_expectations`, with the stream of
`utils.get_expectation_uuid()` results as the parameter `gen`. -/
def transform_expectations (gen : Nat → String) (source : List Expectation) :
    List (String × Expectation) :=
  transformGo gen 0 source []

/-- `APP_EXPECTATIONS` of `app_static_expectations.py` (the first two entries
carry no `"args"` key). -/
def APP_EXPECTATIONS : List Expectation :=
  [⟨"expect_column_values_to_be_increasing", "column_1", []⟩,
   ⟨"expect_column_values_to_not_be_null", "column_2", []⟩,
   ⟨"expect_column_sum_to_be_between", "column_3",
     [("min_value", .int 1), ("max_value", .int 10)]⟩]

/-- An Expectation Result as far as the apps consume it:
`result["success"]`. -/
structure ExpectationResult where
  success : Bool
  deriving DecidableEq

/-- Whether consecutive values of a column never decrease. -/
def isIncreasingList : List Int → Bool
  | [] => true
  | [_] => true
  | a :: b :: rest => a ≤ b && isIncreasingList (b :: rest)

/-- Modelled from the spec: the external `great_expectations` check
`expect_column_values_to_be_increasing` (its implementation is library code,
not part of this repository).  Per the spec's glossary and §8 it is a
predicate over the target column's values succeeding exactly when they are
increasing. -/
def expect_column_values_to_be_increasing (values : List Int) :
    ExpectationResult :=
  ⟨isIncreasingList values⟩

/-- Modelled from the spec: `column_1` of the 3-row sample dataset
`static_expectations_dataset.csv` (the CSV ships with the repository but is
not among the source files); §8 gives `column_1 = [1, 2, 3]`. -/
def sample_column_1 : List Int :=
  [1, 2, 3]

example : pyParseInt "  -1_2 " = some (-12) := by decide
example : pyParseInt "3abc" = none := by decide
example : pyParseFloat "3.5" = some (.finite 35 (-1)) := by decide
example : pyParseFloat " -2E-3" = some (.finite (-2) (-3)) := by decide
example : pyParseFloat "Inf" = some (.inf false) := by decide
example : pyParseFloat "1_" = none := by decide
example : coerce_arg_value " 3 " = .ok (.int 3) := by decide
example : coerce_arg_value " true" = .ok (.str "true") := by decide

/-! ## Helper lemmas about whitespace stripping -/

theorem dropWhile_cons_false {p : Char → Bool} {c : Char} {t : List Char}
    (h : p c = false) : (c :: t).dropWhile p = c :: t := by
  simp [List.dropWhile_cons, h]

theorem head_false_of_dropWhile_self {p : Char → Bool} {c : Char} {t : List Char}
    (h : (c :: t).dropWhile p = c :: t) : p c = false := by
  cases hpc : p c
  · rfl
  · exfalso
    rw [List.dropWhile_cons] at h
    simp only [hpc, if_true] at h
    have h1 := congrArg List.length h
    have h2 := (List.dropWhile_sublist (l := t) p).length_le
    simp only [List.length_cons] at h1
    omega

theorem dropWhile_head_false {p : Char → Bool} :
    ∀ {l : List Char} {c : Char} {t : List Char},
      l.dropWhile p = c :: t → p c = false := by
  intro l
  induction l with
  | nil => intro c t h; simp [List.dropWhile] at h
  | cons a l ih =>
    intro c t h
    cases hpa : p a
    · rw [List.dropWhile_cons] at h
      simp only [hpa, if_false] at h
      obtain ⟨h1, _⟩ := List.cons.inj h
      rwa [← h1]
    · rw [List.dropWhile_cons] at h
      simp only [hpa, if_true] at h
      exact ih h

theorem dropWhile_idem (p : Char → Bool) (l : List Char) :
    (l.dropWhile p).dropWhile p = l.dropWhile p := by
  cases h : l.dropWhile p with
  | nil => rfl
  | cons c t => exact dropWhile_cons_false (dropWhile_head_false h)

theorem stripList_idem (l : List Char) : stripList (stripList l) = stripList l := by
  have hA : (stripList l).dropWhile isPySpace = stripList l := by
    cases hvr : stripList l with
    | nil => rfl
    | cons c t =>
      apply dropWhile_cons_false
      obtain ⟨w, hw⟩ :=
        List.dropWhile_suffix (l := (l.dropWhile isPySpace).reverse) isPySpace
      have h3 := congrArg List.reverse hw
      simp only [List.reverse_append, List.reverse_reverse] at h3
      have hu2 : l.dropWhile isPySpace = stripList l ++ w.reverse := h3.symm
      rw [hvr] at hu2
      have h4 : ((c :: t) ++ w.reverse).dropWhile isPySpace = (c :: t) ++ w.reverse := by
        rw [← hu2]; exact dropWhile_idem _ l
      exact head_false_of_dropWhile_self h4
  show (((stripList l).dropWhile isPySpace).reverse.dropWhile isPySpace).reverse
      = stripList l
  rw [hA]
  show ((((l.dropWhile isPySpace).reverse.dropWhile isPySpace).reverse).reverse.dropWhile
      isPySpace).reverse = stripList l
  rw [List.reverse_reverse, dropWhile_idem]
  rfl

theorem pyParseInt_pyStrip (s : String) : pyParseInt (pyStrip s) = pyParseInt s :=
  congrArg pyIntCore (stripList_idem s.data)

theorem pyParseFloat_pyStrip (s : String) : pyParseFloat (pyStrip s) = pyParseFloat s :=
  congrArg pyFloatCore (stripList_idem s.data)

theorem spaceToLower (c : Char) (h : isPySpace c = true) : Char.toLower c = c := by
  simp only [isPySpace, Bool.or_eq_true, beq_iff_eq] at h
  rcases h with ((((h | h) | h) | h) | h) | h <;> subst h <;> decide

theorem dropWhile_eq_self_of_all {p : Char → Bool} {l : List Char}
    (h : ∀ c ∈ l, p c = false) : l.dropWhile p = l := by
  cases l with
  | nil => rfl
  | cons c t => exact dropWhile_cons_false (h c (List.mem_cons_self c t))

theorem pyStrip_eq_self (s : String) (h : ∀ c ∈ s.data, isPySpace c = false) :
    pyStrip s = s := by
  have h1 : s.data.dropWhile isPySpace = s.data := dropWhile_eq_self_of_all h
  have h2 : s.data.reverse.dropWhile isPySpace = s.data.reverse :=
    dropWhile_eq_self_of_all fun c hc => h c (List.mem_reverse.mp hc)
  show (⟨((s.data.dropWhile isPySpace).reverse.dropWhile isPySpace).reverse⟩ : String) = s
  rw [h1, h2, List.reverse_reverse]

theorem no_space_of_pyLower_bool (s : String)
    (h : pyLower s = "false" ∨ pyLower s = "true") :
    ∀ c ∈ s.data, isPySpace c = false := by
  intro c hc
  cases hsp : isPySpace c
  · rfl
  · exfalso
    have hlc : Char.toLower c = c := spaceToLower c hsp
    have hmem : Char.toLower c ∈ s.data.map Char.toLower := List.mem_map_of_mem _ hc
    rcases h with h | h
    · have h5 : s.data.map Char.toLower = "false".data := congrArg String.data h
      rw [h5, hlc] at hmem
      fin_cases hmem <;> exact absurd hsp (by decide)
    · have h5 : s.data.map Char.toLower = "true".data := congrArg String.data h
      rw [h5, hlc] at hmem
      fin_cases hmem <;> exact absurd hsp (by decide)

theorem is_bool_iff (x : String) :
    is_bool x = true ↔ pyLower x = "false" ∨ pyLower x = "true" := by
  simp [is_bool]

theorem pyStrip_eq_self_of_is_bool (x : String) (h : is_bool x = true) :
    pyStrip x = x :=
  pyStrip_eq_self x (no_space_of_pyLower_bool x ((is_bool_iff x).mp h))

theorem convert_to_bool_of_is_bool (x : String) (h : is_bool x = true) :
    convert_to_bool x = some (pyLower x == "true") := by
  rcases (is_bool_iff x).mp h with h1 | h1
  · unfold convert_to_bool
    rw [h1]
    decide
  · unfold convert_to_bool
    rw [h1]
    decide

/-! ## Helper lemmas about the argument coercion -/

theorem coerce_arg_value_ne_raised (raw : String) :
    coerce_arg_value raw ≠ CoerceResult.raised := by
  unfold coerce_arg_value
  by_cases hint : is_int raw = true
  · rw [if_pos hint]
    have h1 : (pyParseInt (pyStrip raw)).isSome = true := by
      rw [pyParseInt_pyStrip]; exact hint
    obtain ⟨n, hn⟩ := Option.isSome_iff_exists.mp h1
    rw [hn]
    simp
  · rw [if_neg hint]
    by_cases hfl : is_float raw = true
    · rw [if_pos hfl]
      have h1 : (pyParseFloat (pyStrip raw)).isSome = true := by
        rw [pyParseFloat_pyStrip]; exact hfl
      obtain ⟨f, hf⟩ := Option.isSome_iff_exists.mp h1
      rw [hf]
      simp
    · rw [if_neg hfl]
      by_cases hb : is_bool raw = true
      · rw [if_pos hb]
        cases convert_to_bool (pyStrip raw) <;> simp
      · rw [if_neg hb]
        simp

theorem foldlM_format_step_isSome (args : List ArgInput) :
    ∀ acc, (args.foldlM format_step acc).isSome = true := by
  induction args with
  | nil => intro acc; rfl
  | cons a args ih =>
    intro acc
    rw [List.foldlM_cons]
    have hs : ∃ acc', format_step acc a = some acc' := by
      cases hv : a.value with
      | none => exact ⟨acc, by simp [format_step, hv]⟩
      | some raw =>
        by_cases hr : raw = ""
        · exact ⟨acc, by simp [format_step, hv, hr]⟩
        · cases hc : coerce_arg_value raw with
          | ok v => exact ⟨dictInsert acc a.name v, by simp [format_step, hv, hr, hc]⟩
          | raised => exact absurd hc (coerce_arg_value_ne_raised raw)
    obtain ⟨acc', ha⟩ := hs
    rw [ha]
    simpa using ih acc'

theorem format_expectation_args_isSome (args : List ArgInput) :
    (format_expectation_args args).isSome = true :=
  foldlM_format_step_isSome args []

/-! ## Helper lemmas about dict operations and the remaining utils -/

theorem dictInsert_eq_append {α : Type} (d : List (String × α)) (k : String) (v : α)
    (h : ∀ p ∈ d, p.1 ≠ k) : dictInsert d k v = d ++ [(k, v)] := by
  have hany : (d.any fun p => p.1 == k) = false := by
    rw [List.any_eq_false]
    intro p hp
    simp [h p hp]
  simp [dictInsert, hany]

theorem gep_foldl {V : Type} (signature : List (SigParam V)) :
    ∀ acc : List (ExpectationParam V),
      signature.foldl
          (fun acc p =>
            if p.name ∈ IGNORE_EXPECTATION_PARAMS then acc
            else acc ++ [⟨p.name, p.default, SigParam.annotation p⟩])
          acc
        = acc ++ (signature.filter fun p =>
              !(p.name ∈ IGNORE_EXPECTATION_PARAMS : Bool)).map
            (fun p => (⟨p.name, p.default, SigParam.annotation p⟩ : ExpectationParam V)) := by
  induction signature with
  | nil => intro acc; simp
  | cons p sig ih =>
    intro acc
    rw [List.foldl_cons, List.filter_cons]
    by_cases hp : p.name ∈ IGNORE_EXPECTATION_PARAMS
    · rw [if_pos hp, ih]
      simp [hp]
    · rw [if_neg hp, ih]
      simp [hp]

theorem get_expectation_parameters_eq {V : Type} (signature : List (SigParam V)) :
    get_expectation_parameters signature =
      (signature.filter fun p => !(p.name ∈ IGNORE_EXPECTATION_PARAMS : Bool)).map
        (fun p => (⟨p.name, p.default, SigParam.annotation p⟩ : ExpectationParam V)) := by
  unfold get_expectation_parameters
  simpa using gep_foldl signature []

theorem transformGo_eq (gen : Nat → String) :
    ∀ (source : List Expectation) (i : Nat) (acc : List (String × Expectation)),
      (∀ j, j < source.length → ∀ p ∈ acc, p.1 ≠ gen (i + j)) →
      (∀ j k, j < source.length → k < source.length → gen (i + j) = gen (i + k) → j = k) →
      transformGo gen i source acc =
        acc ++ (source.enumFrom i).map fun p => (gen p.1, p.2) := by
  intro source
  induction source with
  | nil => intro i acc _ _; simp [transformGo, List.enumFrom]
  | cons e rest ih =>
    intro i acc hfresh hinj
    show transformGo gen (i + 1) rest (dictInsert acc (gen i) e) = _
    have hins : dictInsert acc (gen i) e = acc ++ [(gen i, e)] := by
      apply dictInsert_eq_append
      intro p hp
      have h0 := hfresh 0 (by simp) p hp
      simpa using h0
    rw [hins]
    rw [ih (i + 1) (acc ++ [(gen i, e)]) ?fresh ?inj]
    · simp [List.enumFrom]
    case fresh =>
      intro j hj p hp
      rcases List.mem_append.mp hp with hp | hp
      · have h1 := hfresh (j + 1) (by simp [Nat.succ_lt_succ hj]) p hp
        have harg : i + (j + 1) = i + 1 + j := by omega
        rwa [harg] at h1
      · have hp1 : p.1 = gen i := by
          simp only [List.mem_singleton] at hp
          rw [hp]
        rw [hp1]
        intro hgen
        have harg1 : gen i = gen (i + 0) := by rw [Nat.add_zero]
        have harg2 : gen (i + 1 + j) = gen (i + (j + 1)) := by
          have : i + 1 + j = i + (j + 1) := by omega
          rw [this]
        rw [harg1, harg2] at hgen
        have := hinj 0 (j + 1) (by simp) (by simp [Nat.succ_lt_succ hj]) hgen
        omega
    case inj =>
      intro j k hj hk hgen
      have harg1 : i + 1 + j = i + (j + 1) := by omega
      have harg2 : i + 1 + k = i + (k + 1) := by omega
      rw [harg1, harg2] at hgen
      have := hinj (j + 1) (k + 1) (by simp [Nat.succ_lt_succ hj])
        (by simp [Nat.succ_lt_succ hk]) hgen
      omega

theorem transform_expectations_eq (gen : Nat → String) (source : List Expectation)
    (hinj : ∀ i j, i < source.length → j < source.length → gen i = gen j → i = j) :
    transform_expectations gen source =
      (source.enumFrom 0).map fun p => (gen p.1, p.2) := by
  unfold transform_expectations
  rw [transformGo_eq gen source 0 [] (by intro j hj p hp; simp at hp)
    (by intro j k hj hk h; exact hinj j k hj hk (by simpa using h))]
  simp

theorem map_snd_pair_enumFrom {α : Type} (gen : Nat → String) :
    ∀ (l : List α) (n : Nat),
      (((l.enumFrom n).map fun p => (gen p.1, p.2)).map Prod.snd) = l := by
  intro l
  induction l with
  | nil => intro n; rfl
  | cons a l ih => intro n; simp [List.enumFrom, ih]

theorem filter_ne_length (state : List (String × Expectation)) (eid : String)
    (hnodup : (state.map Prod.fst).Nodup) (hid : eid ∈ state.map Prod.fst) :
    (state.filter fun p => !(p.1 == eid)).length + 1 = state.length := by
  induction state with
  | nil => simp at hid
  | cons q state ih =>
    simp only [List.map_cons, List.nodup_cons, List.mem_cons] at hnodup hid
    rw [List.filter_cons]
    by_cases hq : q.1 = eid
    · simp only [hq, beq_self_eq_true, Bool.not_true, if_false]
      have hself : state.filter (fun p => !(p.1 == eid)) = state := by
        apply List.filter_eq_self.mpr
        intro p hp
        simp only [Bool.not_eq_true', beq_eq_false_iff_ne, ne_eq]
        intro hpe
        exact hnodup.1 (by rw [hq, ← hpe]; exact List.mem_map_of_mem Prod.fst hp)
      rw [hself]
      simp
    · have hqb : (!(q.1 == eid)) = true := by simp [hq]
      rw [if_pos hqb]
      have hid' : eid ∈ state.map Prod.fst := by
        rcases hid with h | h
        · exact absurd h.symm hq
        · exact h
      have := ih hnodup.2 hid'
      simp only [List.length_cons]
      omega

/-! ## Claim theorems -/

/-- C1: for every raw string argument value supplied to `_add_new_expectation`,
the coercion classifies and converts in this order: `""`/`None` values are
omitted entirely (the accumulator is unchanged); else a value parsing as an
integer is stored as that int; else one parsing as a float is stored as that
float; else a case-insensitive `"true"`/`"false"` literal is stored as the
corresponding bool; else the value is stored as a string.  Concretely, `"3"`
becomes int 3, `"3.5"` becomes the float 3.5 (= 35·10⁻¹ = 7/2), `"true"` and
`"FALSE"` become the bools, `"abc"` and `"3abc"` stay strings, and `"1"`
becomes int 1 rather than a bool. -/
theorem claim_C1_coercion_order (raw : String) (name : String)
    (acc : List (String × PyVal)) :
    (format_step acc ⟨name, none⟩ = some acc) ∧
    (format_step acc ⟨name, some ""⟩ = some acc) ∧
    (∀ n, pyParseInt raw = some n →
      coerce_arg_value raw = .ok (.int n)) ∧
    (∀ f, is_int raw = false → pyParseFloat raw = some f →
      coerce_arg_value raw = .ok (.float f)) ∧
    (is_int raw = false → is_float raw = false → is_bool raw = true →
      coerce_arg_value raw = .ok (.bool (pyLower raw == "true"))) ∧
    (is_int raw = false → is_float raw = false → is_bool raw = false →
      coerce_arg_value raw = .ok (.str (pyStrip raw))) ∧
    coerce_arg_value "3" = .ok (.int 3) ∧
    coerce_arg_value "3.5" = .ok (.float (.finite 35 (-1))) ∧
    PyFloat.toRat (.finite 35 (-1)) = some (7 / 2) ∧
    coerce_arg_value "true" = .ok (.bool true) ∧
    coerce_arg_value "FALSE" = .ok (.bool false) ∧
    coerce_arg_value "abc" = .ok (.str "abc") ∧
    coerce_arg_value "3abc" = .ok (.str "3abc") ∧
    coerce_arg_value "1" = .ok (.int 1) := by
  refine ⟨rfl, by simp [format_step], ?_, ?_, ?_, ?_, by decide, by decide,
    ?_, by decide, by decide, by decide, by decide, by decide⟩
  · intro n hn
    have hint : is_int raw = true := by unfold is_int; rw [hn]; rfl
    unfold coerce_arg_value
    rw [if_pos hint, pyParseInt_pyStrip, hn]
  · intro f hint hf
    have hfl : is_float raw = true := by unfold is_float; rw [hf]; rfl
    unfold coerce_arg_value
    rw [if_neg (by rw [hint]; exact Bool.false_ne_true), if_pos hfl,
      pyParseFloat_pyStrip, hf]
  · intro hint hfl hb
    unfold coerce_arg_value
    rw [if_neg (by rw [hint]; exact Bool.false_ne_true),
      if_neg (by rw [hfl]; exact Bool.false_ne_true), if_pos hb,
      pyStrip_eq_self_of_is_bool raw hb, convert_to_bool_of_is_bool raw hb]
  · intro hint hfl hb
    unfold coerce_arg_value
    rw [if_neg (by rw [hint]; exact Bool.false_ne_true),
      if_neg (by rw [hfl]; exact Bool.false_ne_true),
      if_neg (by rw [hb]; exact Bool.false_ne_true)]
  · show PyFloat.toRat (.finite 35 (-1)) = some (7 / 2)
    unfold PyFloat.toRat
    norm_num

/-- Witness for C1 at concrete inputs: `"7"` parses as the integer 7 and is
coerced to int 7. -/
theorem claim_C1_witness :
    coerce_arg_value "7" = CoerceResult.ok (PyVal.int 7) :=
  (claim_C1_coercion_order "7" "p" []).2.2.1 7 (by decide)

/-- C2: `get_sample_data` fails exactly when the external read fails, with an
error message that names the requested filename (`"Unable to ingest requested
dataset file: " ++ filename`), and returns no partial result (an `ok` outcome
can only be the successfully read table, unchanged). -/
theorem claim_C2_loader {α : Type} (read_csv : String → Option α) (fn : String) :
    (read_csv fn = none →
      get_sample_data read_csv fn =
        .error ("Unable to ingest requested dataset file: " ++ fn)) ∧
    (∀ df, read_csv fn = some df → get_sample_data read_csv fn = .ok df) ∧
    (∀ df, get_sample_data read_csv fn = .ok df → read_csv fn = some df) := by
  refine ⟨?_, ?_, ?_⟩
  · intro h
    simp [get_sample_data, h]
  · intro df h
    simp [get_sample_data, h]
  · intro df h
    unfold get_sample_data at h
    cases hr : read_csv fn with
    | none => rw [hr] at h; exact absurd h (by simp)
    | some df' => rw [hr] at h; simp at h; rw [h]

/-- Witness for C2: a reader that fails on every file yields the error naming
the requested filename; a constant successful reader returns its table. -/
theorem claim_C2_witness :
    get_sample_data (fun _ => (none : Option Nat)) "static_expectations_dataset.csv" =
      .error ("Unable to ingest requested dataset file: " ++
        "static_expectations_dataset.csv") ∧
    get_sample_data (fun _ => some 42) "static_expectations_dataset.csv" =
      .ok 42 :=
  ⟨(claim_C2_loader (fun _ => none) "static_expectations_dataset.csv").1 rfl,
   (claim_C2_loader (fun _ => some 42) "static_expectations_dataset.csv").2.1 42 rfl⟩

/-- C3: `get_expectation_parameters` returns exactly the retained formal
parameters, in declared order, each reported with its name, declared default
and annotation (the filter-then-map equality), and never returns a
parameter whose name lies in `IGNORE_EXPECTATION_PARAMS`; every signature
parameter outside the ignore-set is returned. -/
theorem claim_C3_parameter_introspector {V : Type} (signature : List (SigParam V)) :
    (get_expectation_parameters signature =
      (signature.filter fun p => !(p.name ∈ IGNORE_EXPECTATION_PARAMS : Bool)).map
        (fun p => (⟨p.name, p.default, SigParam.annotation p⟩ : ExpectationParam V))) ∧
    (∀ q ∈ get_expectation_parameters signature,
      q.param ∉ IGNORE_EXPECTATION_PARAMS) ∧
    (∀ p ∈ signature, p.name ∉ IGNORE_EXPECTATION_PARAMS →
      (⟨p.name, p.default, SigParam.annotation p⟩ : ExpectationParam V) ∈
        get_expectation_parameters signature) := by
  refine ⟨get_expectation_parameters_eq signature, ?_, ?_⟩
  · intro q hq
    rw [get_expectation_parameters_eq] at hq
    obtain ⟨p, hp, hpq⟩ := List.mem_map.mp hq
    obtain ⟨hpm, hpf⟩ := List.mem_filter.mp hp
    rw [← hpq]
    simpa using hpf
  · intro p hp hpn
    rw [get_expectation_parameters_eq]
    exact List.mem_map.mpr ⟨p, List.mem_filter.mpr ⟨hp, by simpa using hpn⟩, rfl⟩

/-- Witness for C3 at a concrete signature: `"self"` and `"result_format"` are
dropped, `"min_value"` is retained with its default. -/
theorem claim_C3_witness :
    (⟨"min_value", (1 : Nat), 2⟩ : ExpectationParam Nat) ∈
      get_expectation_parameters
        [(⟨"self", 0, 0⟩ : SigParam Nat), ⟨"min_value", 1, 2⟩, ⟨"result_format", 0, 0⟩] :=
  (claim_C3_parameter_introspector _).2.2 ⟨"min_value", 1, 2⟩ (by decide) (by decide)

/-- C5: the coercion step never raises: coercing any raw value never yields
`raised`, the whole argument-formatting loop always succeeds, and a non-empty
string failing the integer, float and boolean checks is silently kept as a
(stripped) string. -/
theorem claim_C5_coercion_silent (raw : String) (args : List ArgInput) :
    coerce_arg_value raw ≠ CoerceResult.raised ∧
    (format_expectation_args args).isSome = true ∧
    (is_int raw = false → is_float raw = false → is_bool raw = false →
      coerce_arg_value raw = .ok (.str (pyStrip raw))) := by
  refine ⟨coerce_arg_value_ne_raised raw, format_expectation_args_isSome args, ?_⟩
  intro hint hfl hb
  unfold coerce_arg_value
  rw [if_neg (by rw [hint]; exact Bool.false_ne_true),
    if_neg (by rw [hfl]; exact Bool.false_ne_true),
    if_neg (by rw [hb]; exact Bool.false_ne_true)]

/-- Witness for C5: `"n/a"` fails all three checks and is kept as a string. -/
theorem claim_C5_witness :
    coerce_arg_value "n/a" = CoerceResult.ok (PyVal.str "n/a") :=
  (claim_C5_coercion_silent "n/a" []).2.2 (by decide) (by decide) (by decide)

/-- C9: `convert_to_bool` returns `None` (and does not raise — the
`ValueError` in its else branch is constructed but never raised) for every
string whose lowercase form is neither `"true"` nor `"false"`; under
`is_bool x = True` it returns `True` exactly when `x.lower() == "true"` and
`False` exactly when `x.lower() == "false"`. -/
theorem claim_C9_convert_to_bool (x : String) :
    (pyLower x ≠ "true" → pyLower x ≠ "false" → convert_to_bool x = none) ∧
    (is_bool x = true →
      ((convert_to_bool x = some true ↔ pyLower x = "true") ∧
       (convert_to_bool x = some false ↔ pyLower x = "false"))) := by
  constructor
  · intro ht hf
    simp [convert_to_bool, ht, hf]
  · intro hb
    rcases (is_bool_iff x).mp hb with h | h <;>
      · unfold convert_to_bool
        rw [h]
        decide
/-- Witness for C9: `"maybe"` maps to `None`; `"TRUE"` maps to `True`. -/
theorem claim_C9_witness :
    convert_to_bool "maybe" = none ∧ convert_to_bool "TRUE" = some true :=
  ⟨(claim_C9_convert_to_bool "maybe").1 (by decide) (by decide),
   (((claim_C9_convert_to_bool "TRUE").2 (by decide)).1).mpr (by decide)⟩

/-- C4 (frame effect): on a session expectation collection with distinct
keys, `_add_new_expectation` under a fresh unique id appends exactly one new
entry, leaving every pre-existing entry unchanged and in place; and
`_delete_expectation` of a present id removes exactly the entry with that id
and no others. -/
theorem claim_C4_add_delete_frame (state : List (String × Expectation))
    (fresh : String) (hfresh : ∀ p ∈ state, p.1 ≠ fresh)
    (exp col : String) (args : List ArgInput) (eid : String)
    (hid : eid ∈ state.map Prod.fst) (hnodup : (state.map Prod.fst).Nodup) :
    (∃ fargs, format_expectation_args args = some fargs ∧
      _add_new_expectation state fresh exp col args =
        some (state ++ [(fresh, ⟨exp, col, fargs⟩)])) ∧
    (∃ st', _delete_expectation state eid = some st' ∧
      (∀ q, q ∈ st' ↔ q ∈ state ∧ q.1 ≠ eid) ∧
      st'.length + 1 = state.length) := by
  constructor
  · obtain ⟨fargs, hf⟩ :=
      Option.isSome_iff_exists.mp (format_expectation_args_isSome args)
    refine ⟨fargs, hf, ?_⟩
    unfold _add_new_expectation
    rw [hf, Option.map_some']
    rw [dictInsert_eq_append state fresh _ hfresh]
  · have hany : (state.any fun p => p.1 == eid) = true := by
      rw [List.any_eq_true]
      obtain ⟨p, hp, hpe⟩ := List.mem_map.mp hid
      exact ⟨p, hp, by simp [hpe]⟩
    refine ⟨state.filter fun p => !(p.1 == eid), ?_, ?_, ?_⟩
    · unfold _delete_expectation
      rw [if_pos hany]
    · intro q
      rw [List.mem_filter]
      simp
    · exact filter_ne_length state eid hnodup hid

/-- Witness for C4 on a concrete two-entry session. -/
theorem claim_C4_witness :
    (∃ fargs, format_expectation_args [] = some fargs ∧
      _add_new_expectation
          [("u1", ⟨"e1", "c1", []⟩), ("u2", ⟨"e2", "c2", []⟩)] "u3" "e3" "c3" [] =
        some ([("u1", ⟨"e1", "c1", []⟩), ("u2", ⟨"e2", "c2", []⟩)] ++
          [("u3", ⟨"e3", "c3", fargs⟩)])) ∧
    (∃ st', _delete_expectation
          [("u1", ⟨"e1", "c1", []⟩), ("u2", ⟨"e2", "c2", []⟩)] "u1" = some st' ∧
      (∀ q, q ∈ st' ↔
        q ∈ [("u1", (⟨"e1", "c1", []⟩ : Expectation)),
             ("u2", ⟨"e2", "c2", []⟩)] ∧ q.1 ≠ "u1") ∧
      st'.length + 1 =
        [("u1", (⟨"e1", "c1", []⟩ : Expectation)), ("u2", ⟨"e2", "c2", []⟩)].length) :=
  claim_C4_add_delete_frame
    [("u1", ⟨"e1", "c1", []⟩), ("u2", ⟨"e2", "c2", []⟩)] "u3"
    (by decide) "e3" "c3" [] "u1" (by decide) (by decide)

/-- C6 (end-to-end, modelled from the spec for the parts outside `src/`): the
first registered check of `APP_EXPECTATIONS` is
`expect_column_values_to_be_increasing` on `column_1`; on the sample dataset's
`column_1 = [1, 2, 3]` the check succeeds, and after mutating row 2's value to
1 (giving `[1, 2, 1]`, non-increasing) it fails. -/
theorem claim_C6_increasing_check_flip :
    APP_EXPECTATIONS.get? 0 =
      some ⟨"expect_column_values_to_be_increasing", "column_1", []⟩ ∧
    sample_column_1.set 2 1 = [1, 2, 1] ∧
    (expect_column_values_to_be_increasing sample_column_1).success = true ∧
    (expect_column_values_to_be_increasing (sample_column_1.set 2 1)).success
      = false := by
  decide

/-- C7: `get_available_expectations` returns exactly the member names starting
with the prefix `"expect_column"`, and every returned name carries that
prefix. -/
theorem claim_C7_available_expectations {V : Type} (members : List (String × V)) :
    (∀ n ∈ get_available_expectations members,
      pyStartswith n "expect_column" = true) ∧
    (∀ n, n ∈ get_available_expectations members ↔
      ∃ v, (n, v) ∈ members ∧ pyStartswith n "expect_column" = true) := by
  constructor
  · intro n hn
    obtain ⟨p, hp, hpn⟩ := List.mem_map.mp hn
    rw [← hpn]
    exact (List.mem_filter.mp hp).2
  · intro n
    constructor
    · intro hn
      obtain ⟨p, hp, hpn⟩ := List.mem_map.mp hn
      obtain ⟨hpm, hps⟩ := List.mem_filter.mp hp
      exact ⟨p.2, by rw [← hpn]; exact ⟨hpm, hps⟩⟩
    · rintro ⟨v, hv, hs⟩
      exact List.mem_map.mpr ⟨(n, v), List.mem_filter.mpr ⟨hv, hs⟩, rfl⟩

/-- Witness for C7 on a concrete member list. -/
theorem claim_C7_witness :
    "expect_column_values_to_not_be_null" ∈
      get_available_expectations
        [("expect_column_values_to_not_be_null", 0), ("validate", 1)] :=
  ((claim_C7_available_expectations
      [("expect_column_values_to_not_be_null", 0), ("validate", 1)]).2
    "expect_column_values_to_not_be_null").mpr ⟨0, by decide, by decide⟩

/-- C8: given pairwise-distinct generated uuids, `transform_expectations`
produces exactly one entry per source expectation, in order, each keyed by
the freshly generated id for its position, with the source expectation stored
unchanged as the value. -/
theorem claim_C8_transform (gen : Nat → String) (source : List Expectation)
    (hinj : ∀ i j, i < source.length → j < source.length → gen i = gen j → i = j) :
    transform_expectations gen source =
      ((source.enumFrom 0).map fun p => (gen p.1, p.2)) ∧
    (transform_expectations gen source).length = source.length ∧
    (transform_expectations gen source).map Prod.snd = source := by
  have heq := transform_expectations_eq gen source hinj
  refine ⟨heq, ?_, ?_⟩
  · rw [heq]
    simp
  · rw [heq]
    exact map_snd_pair_enumFrom gen source 0

/-- Witness for C8 on a concrete singleton source list. -/
theorem claim_C8_witness :
    transform_expectations (fun _ => "u0") [⟨"e1", "c1", []⟩] =
      (([(⟨"e1", "c1", []⟩ : Expectation)].enumFrom 0).map
        fun p => ((fun _ => "u0") p.1, p.2)) ∧
    (transform_expectations (fun _ => "u0") [⟨"e1", "c1", []⟩]).length =
      [(⟨"e1", "c1", []⟩ : Expectation)].length ∧
    (transform_expectations (fun _ => "u0") [⟨"e1", "c1", []⟩]).map Prod.snd =
      [(⟨"e1", "c1", []⟩ : Expectation)] :=
  claim_C8_transform (fun _ => "u0") [⟨"e1", "c1", []⟩]
    (by intro i j hi hj _; simp at hi hj; omega)

/-- C10 counterexample: the raw value `" 3 "` is an integer literal
surrounded by whitespace — a recognized literal — yet it is coerced to
int 3, not stored as the stripped string `"3"`: Python's `int()` itself
ignores surrounding whitespace, so `is_int` accepts the unstripped value. -/
theorem claim_C10_counterexample :
    coerce_arg_value " 3 " = CoerceResult.ok (PyVal.int 3) ∧
    coerce_arg_value " 3 " ≠ CoerceResult.ok (PyVal.str "3") := by
  decide

/-- C10 as amended: classification runs on the raw value and the stored value
is stripped, but only *boolean* literals surrounded by whitespace escape
coercion and are stored as the plain stripped string (they fail the
whitespace-sensitive `is_bool` and the numeric checks); integer and float
literals surrounded by whitespace are still coerced, because Python's
`int()`/`float()` accept surrounding whitespace; a whitespace-only value is
not omitted but stored as the empty string `""`. -/
theorem claim_C10_amended (raw : String) :
    (∀ n, pyParseInt raw = some n → coerce_arg_value raw = .ok (.int n)) ∧
    (is_int raw = false → is_float raw = false → is_bool raw = false →
      is_bool (pyStrip raw) = true →
      coerce_arg_value raw = .ok (.str (pyStrip raw))) ∧
    coerce_arg_value " true" = .ok (.str "true") ∧
    coerce_arg_value " FALSE " = .ok (.str "FALSE") ∧
    coerce_arg_value " " = .ok (.str "") ∧
    coerce_arg_value " 3 " = .ok (.int 3) ∧
    coerce_arg_value " 3.5" = .ok (.float (.finite 35 (-1))) := by
  refine ⟨?_, ?_, by decide, by decide, by decide, by decide, by decide⟩
  · intro n hn
    have hint : is_int raw = true := by unfold is_int; rw [hn]; rfl
    unfold coerce_arg_value
    rw [if_pos hint, pyParseInt_pyStrip, hn]
  · intro hint hfl hb _
    unfold coerce_arg_value
    rw [if_neg (by rw [hint]; exact Bool.false_ne_true),
      if_neg (by rw [hfl]; exact Bool.false_ne_true),
      if_neg (by rw [hb]; exact Bool.false_ne_true)]

/-- Witness for C10's amended statement: `" 12 "` is still coerced to an int,
`"tRuE "` falls through to the string branch. -/
theorem claim_C10_witness :
    coerce_arg_value " 12 " = CoerceResult.ok (PyVal.int 12) ∧
    coerce_arg_value "tRuE " = CoerceResult.ok (PyVal.str "tRuE") :=
  ⟨(claim_C10_amended " 12 ").1 12 (by decide),
   (claim_C10_amended "tRuE ").2.1 (by decide) (by decide) (by decide) (by decide)⟩
